import Mathlib

/-!
Shallow embedding of `app/excel_processor.py` (BOM2Pic v2).

Python strings are modelled as `List Char` (ASCII fragment), byte strings as
`List Nat`.  Fallible Python functions (those that `raise`) are modelled as
`Except String` values carrying the exception message.  The two external
libraries the module calls into are modelled as explicit parameters:

* `parse : List Nat → Option Workbook` stands for `openpyxl.load_workbook`
  together with the duck-typed traversal of `sheet._images` /
  `img.anchor._from`; `Option.none` means any exception during loading.
* `detect : List Nat → List Char` stands for `detect_image_extension`
  (PIL-based format sniffing); its output is the extension string.

Everything else is translated clause by clause from the source.
-/

namespace B2P

/-- ASCII whitespace, as recognised by Python `str.strip` and regex `\s`. -/
def isPySpace (c : Char) : Bool :=
  c = ' ' || c = '\t' || c = '\n' || c = '\r' || c = '\x0b' || c = '\x0c'

/-- Python `str.upper` on one ASCII character. -/
def pyUpperChar (c : Char) : Char :=
  if 'a' ≤ c && c ≤ 'z' then Char.ofNat (c.toNat - 32) else c

/-- Python `str.isalpha` on one ASCII character. -/
def isAsciiAlpha (c : Char) : Bool :=
  ('A' ≤ c && c ≤ 'Z') || ('a' ≤ c && c ≤ 'z')

/-- An upper-case ASCII letter. -/
def isUpperAlpha (c : Char) : Bool :=
  'A' ≤ c && c ≤ 'Z'

/-- Python `str.strip()` (ASCII whitespace on both ends). -/
def pyStrip (l : List Char) : List Char :=
  ((l.dropWhile isPySpace).reverse.dropWhile isPySpace).reverse

/--
`column_letter_to_index` from `excel_processor.py`:

    letter = letter.upper().strip()
    if not letter.isalpha() or len(letter) > 2:
        raise ValueError(f"Invalid column letter: \x7bletter\x7d")
    result = 0
    for char in letter:
        result = result * 26 + (ord(char) - ord('A') + 1)
    return result - 1
-/
def column_letter_to_index (letter : List Char) : Except String Nat :=
  let l := pyStrip (letter.map pyUpperChar)
  if !(!l.isEmpty && l.all isAsciiAlpha) || l.length > 2 then
    Except.error ("Invalid column letter: " ++ String.mk l)
  else
    Except.ok ((l.foldl (fun r c => r * 26 + (c.toNat - 64)) 0) - 1)

/-- The characters removed by `re.sub(r'[<>:"/\\|?*]', '', clean)`. -/
def invalidChar (c : Char) : Bool :=
  c = '<' || c = '>' || c = ':' || c = '"' || c = '/' || c = '\\' ||
    c = '|' || c = '?' || c = '*'

/-- `re.sub(r'\s+', '_', clean)`: each maximal run of whitespace becomes one
underscore.  The boolean argument records whether the previous character was
whitespace (i.e. whether we are inside a run already replaced). -/
def collapseWs : Bool → List Char → List Char
  | _, [] => []
  | prev, c :: cs =>
    if isPySpace c then
      if prev then collapseWs true cs else '_' :: collapseWs true cs
    else c :: collapseWs false cs

/--
`normalize_filename` from `excel_processor.py`:

    if not name or not name.strip():
        return "image"
    clean = str(name).strip()
    clean = re.sub(r'[<>:"/\\|?*]', '', clean)
    clean = re.sub(r'\s+', '_', clean)
    clean = clean[:50]
    return clean or "image"
-/
def normalize_filename (name : List Char) : List Char :=
  if pyStrip name = [] then "image".data
  else
    let clean := pyStrip name
    let clean := clean.filter (fun c => !invalidChar c)
    let clean := collapseWs false clean
    let clean := clean.take 50
    if clean = [] then "image".data else clean

/-- `ImageData` NamedTuple from `excel_processor.py`. -/
structure ImageData where
  name_raw : List Char
  image_bytes : List Nat
  sheet : List Char
  row : Nat
deriving DecidableEq, Repr

/-- The value of one worksheet cell, as seen through `cell.value`. -/
inductive CellValue
  | none
  | str (s : List Char)
  | int (n : Int)
  | bool (b : Bool)
deriving DecidableEq, Repr

/-- Python truthiness of a cell value (`if name_cell.value`). -/
def truthy : CellValue → Bool
  | CellValue.none => false
  | CellValue.str s => !s.isEmpty
  | CellValue.int n => n != 0
  | CellValue.bool b => b

/-- Python `str(...)` of a cell value. -/
def pyStr : CellValue → List Char
  | CellValue.none => "None".data
  | CellValue.str s => s
  | CellValue.int n => (toString n).data
  | CellValue.bool b => if b then "True".data else "False".data

/-- One embedded picture as exposed by openpyxl: `img.anchor._from.row`,
`img.anchor._from.col` (both zero-based) and `img.ref.getvalue()`. -/
structure AnchoredImage where
  anchorRow : Nat
  anchorCol : Nat
  bytes : List Nat

/-- One worksheet: its name, its `_images` list in order, and `sheet.cell`
(1-based row and column, as called by the source). -/
structure Sheet where
  name : List Char
  images : List AnchoredImage
  cell : Nat → Nat → CellValue

/-- A loaded workbook: sheets in `workbook.sheetnames` order. -/
structure Workbook where
  sheets : List Sheet

/--
`extract_images_from_excel` from `excel_processor.py`.  The whole body runs
inside `try: ... except Exception as e: raise ValueError(f"Failed to process
Excel file: ...")`, so both an invalid column letter and a workbook that
cannot be loaded come back wrapped in that message.  `parse` models
`openpyxl.load_workbook`; `Option.none` means it raised.
-/
def extract_images_from_excel (parse : List Nat → Option Workbook)
    (xlsx_bytes : List Nat) (image_col_letter name_col_letter : List Char) :
    Except String (List ImageData) :=
  match column_letter_to_index image_col_letter with
  | Except.error e => Except.error ("Failed to process Excel file: " ++ e)
  | Except.ok image_col_idx =>
    match column_letter_to_index name_col_letter with
    | Except.error e => Except.error ("Failed to process Excel file: " ++ e)
    | Except.ok name_col_idx =>
      match parse xlsx_bytes with
      | Option.none =>
        Except.error "Failed to process Excel file: could not load workbook"
      | Option.some workbook =>
        Except.ok (workbook.sheets.flatMap (fun sheet =>
          sheet.images.filterMap (fun img =>
            if img.anchorCol = image_col_idx then
              let v := sheet.cell (img.anchorRow + 1) (name_col_idx + 1)
              Option.some
                { name_raw :=
                    if truthy v then pyStr v
                    else "image_".data ++ (toString img.anchorRow).data
                  image_bytes := img.bytes
                  sheet := sheet.name
                  row := img.anchorRow + 1 }
            else Option.none)))

/-- Candidate output filename of one image: `f"{base_name}.{extension}"` with
`base_name = normalize_filename(...)` and `extension = detect(...)`. -/
def fnameOf (detect : List Nat → List Char) (img : ImageData) : List Char :=
  normalize_filename img.name_raw ++ '.' :: detect img.image_bytes

/-- The manifest row appended for one image:
`[img_data.sheet, img_data.row, img_data.name_raw, filename, action]`
(the integer `row` is rendered as text, as the csv writer does). -/
def manifestRowOf (detect : List Nat → List Char) (img : ImageData)
    (action : List Char) : List (List Char) :=
  [img.sheet, (toString img.row).data, img.name_raw, fnameOf detect img, action]

/-- Running state of the packaging loop in `create_images_zip`. -/
structure ZipState where
  entries : List (List Char × List Nat)
  seen_names : List (List Char)
  saved_count : Nat
  duplicate_count : Nat
  manifest_rows : List (List (List Char))

/-- One iteration of the `for img_data in images` loop of
`create_images_zip`: dedup bookkeeping, unconditional `zf.writestr`, and the
manifest append. -/
def zipStep (detect : List Nat → List Char) (st : ZipState)
    (img : ImageData) : ZipState :=
  if fnameOf detect img ∈ st.seen_names then
    { entries :=
        st.entries ++ [("images/".data ++ fnameOf detect img, img.image_bytes)]
      seen_names := st.seen_names
      saved_count := st.saved_count
      duplicate_count := st.duplicate_count + 1
      manifest_rows :=
        st.manifest_rows ++ [manifestRowOf detect img "Duplicate".data] }
  else
    { entries :=
        st.entries ++ [("images/".data ++ fnameOf detect img, img.image_bytes)]
      seen_names := fnameOf detect img :: st.seen_names
      saved_count := st.saved_count + 1
      duplicate_count := st.duplicate_count
      manifest_rows :=
        st.manifest_rows ++ [manifestRowOf detect img "Saved".data] }

/-- The header row written first into `report.csv`. -/
def csvHeader : List (List Char) :=
  ["sheet".data, "row".data, "part_name".data, "filename".data, "action".data]

/-- Output of `create_images_zip`: the image entries written into the archive
(path and content, in write order), the rows of `report.csv` (header first,
one record per line), and the two counters. -/
structure ZipOutput where
  imageEntries : List (List Char × List Nat)
  report : List (List (List Char))
  saved_count : Nat
  duplicate_count : Nat
deriving DecidableEq, Repr

/--
`create_images_zip` from `excel_processor.py`: empty input raises
`ValueError("No images to process")`; otherwise the loop above runs over the
images in order and `report.csv` is written last.
-/
def create_images_zip (detect : List Nat → List Char)
    (images : List ImageData) : Except String ZipOutput :=
  if images = [] then Except.error "No images to process"
  else
    let st := images.foldl (zipStep detect)
      { entries := [], seen_names := [], saved_count := 0,
        duplicate_count := 0, manifest_rows := [] }
    Except.ok
      { imageEntries := st.entries
        report := csvHeader :: st.manifest_rows
        saved_count := st.saved_count
        duplicate_count := st.duplicate_count }

/-- The `all_images` accumulator of `process_excel_files`: the loop body
`try: images = extract(...); all_images.extend(images); except: continue`
expressed as a fold (a raised exception contributes nothing). -/
def allImagesOf (parse : List Nat → Option Workbook)
    (files_data : List (List Char × List Nat))
    (image_column name_column : List Char) : List ImageData :=
  files_data.foldl (fun acc fd =>
    match extract_images_from_excel parse fd.2 image_column name_column with
    | Except.ok images => acc ++ images
    | Except.error _ => acc) []

/--
`process_excel_files` from `excel_processor.py`: every per-file exception is
swallowed (`except Exception: continue`), surviving results are concatenated
with `all_images.extend(images)`, an empty aggregate raises
`ValueError("No images found in any of the uploaded files")`, and the final
tuple carries `len(all_images)` as `total_processed`.
-/
def process_excel_files (parse : List Nat → Option Workbook)
    (detect : List Nat → List Char)
    (files_data : List (List Char × List Nat))
    (image_column name_column : List Char) :
    Except String (ZipOutput × Nat) :=
  if allImagesOf parse files_data image_column name_column = [] then
    Except.error "No images found in any of the uploaded files"
  else
    match create_images_zip detect
        (allImagesOf parse files_data image_column name_column) with
    | Except.ok z =>
      Except.ok (z, (allImagesOf parse files_data image_column name_column).length)
    | Except.error e => Except.error e

/-- The concatenation, in input order, of the image lists of the files whose
scan succeeded (failed files contribute nothing). -/
def surviving (parse : List Nat → Option Workbook)
    (files_data : List (List Char × List Nat))
    (image_column name_column : List Char) : List ImageData :=
  files_data.flatMap (fun fd =>
    match extract_images_from_excel parse fd.2 image_column name_column with
    | Except.ok images => images
    | Except.error _ => [])

/-- Fixture sheet reproducing the spec's scenario: images anchored in
column B (zero-based column 1) at 1-based rows 2, 3, 4; labels in column C
are `"X1"`, empty, `"X1"`. -/
def sheetScenario : Sheet :=
  { name := "S".data
    images := [⟨1, 1, [7]⟩, ⟨2, 1, [8]⟩, ⟨3, 1, [9]⟩]
    cell := fun r c =>
      if r = 2 ∧ c = 3 then CellValue.str "X1".data
      else if r = 4 ∧ c = 3 then CellValue.str "X1".data
      else CellValue.none }

def wbScenario : Workbook := { sheets := [sheetScenario] }

/-- Fixture sheet with one image at 1-based row 3 whose label cell is empty. -/
def sheetEmptyLabel : Sheet :=
  { name := "S".data
    images := [⟨2, 1, [7]⟩]
    cell := fun _ _ => CellValue.none }

def wbEmptyLabel : Workbook := { sheets := [sheetEmptyLabel] }

/-- Fixture sheet with one image in column B and its label in column B too. -/
def sheetEqualCols : Sheet :=
  { name := "S".data
    images := [⟨1, 1, [7]⟩]
    cell := fun r c =>
      if r = 2 ∧ c = 2 then CellValue.str "N7".data else CellValue.none }

def wbEqualCols : Workbook := { sheets := [sheetEqualCols] }

/-- Fixture sheet whose label cell holds the falsy integer 0. -/
def sheetZeroLabel : Sheet :=
  { name := "S".data
    images := [⟨2, 1, [7]⟩]
    cell := fun r c =>
      if r = 3 ∧ c = 3 then CellValue.int 0 else CellValue.str "x".data }

def wbZeroLabel : Workbook := { sheets := [sheetZeroLabel] }

/-- Test double for the workbook loader: recognises four byte strings and
fails (raises) on everything else. -/
def parseFix : List Nat → Option Workbook
  | [1] => Option.some wbScenario
  | [2] => Option.some wbEmptyLabel
  | [3] => Option.some wbEqualCols
  | [4] => Option.some wbZeroLabel
  | _ => Option.none

/-- Test double for the PIL-based format sniffer: everything is a PNG. -/
def detectPng : List Nat → List Char := fun _ => "png".data

/-- Reference unfolding of the packaging loop's manifest rows: the action of
each image is `Duplicate` exactly when its candidate filename is in the
running seen-set, which grows by each newly saved filename. -/
def rowsFrom (detect : List Nat → List Char) :
    List (List Char) → List ImageData → List (List (List Char))
  | _, [] => []
  | seen, im :: ims =>
    if fnameOf detect im ∈ seen then
      manifestRowOf detect im "Duplicate".data :: rowsFrom detect seen ims
    else
      manifestRowOf detect im "Saved".data ::
        rowsFrom detect (fnameOf detect im :: seen) ims

/-- The content an archive path ends up with: the payload of the last write
to that path (later writes overwrite earlier ones). -/
def lastContent (entries : List (List Char × List Nat)) (p : List Char) :
    Option (List Nat) :=
  ((entries.filter (fun e => e.1 = p)).getLast?).map (fun e => e.2)

/-- The value `normalize_filename` returns on the non-empty branch. -/
def normCleaned (name : List Char) : List Char :=
  (collapseWs false ((pyStrip name).filter (fun c => !invalidChar c))).take 50


/-- An upper-case column string matching `[A-Z]{1,2}`. -/
def isColPattern (s : List Char) : Bool :=
  (decide (s.length = 1) || decide (s.length = 2)) && s.all isUpperAlpha

lemma toNat_ofNat_of_lt {n : Nat} (h : n < 55296) : (Char.ofNat n).toNat = n := by
  have hv : Nat.isValidChar n := Or.inl h
  simp [Char.ofNat, hv, Char.ofNatAux, Char.toNat, UInt32.toNat]

lemma char_eq_of_toNat_eq {a b : Char} (h : a.toNat = b.toNat) : a = b := by
  apply Char.ext
  apply UInt32.ext
  simpa [Char.toNat, UInt32.toNat] using h

lemma char_le_iff {a b : Char} : a ≤ b ↔ a.toNat ≤ b.toNat := by
  simp [Char.le_def, UInt32.le_def, BitVec.le_def, Char.toNat, UInt32.toNat]

lemma upper_toNat {a : Char} (h : isUpperAlpha a = true) :
    65 ≤ a.toNat ∧ a.toNat ≤ 90 := by
  simp only [isUpperAlpha, Bool.and_eq_true, decide_eq_true_eq] at h
  exact ⟨char_le_iff.mp h.1, char_le_iff.mp h.2⟩

lemma lower_range {c : Char} (h : ('a' ≤ c && c ≤ 'z') = true) :
    97 ≤ c.toNat ∧ c.toNat ≤ 122 := by
  simp only [Bool.and_eq_true, decide_eq_true_eq] at h
  exact ⟨char_le_iff.mp h.1, char_le_iff.mp h.2⟩

lemma isPySpace_iff_toNat {c : Char} :
    isPySpace c = true ↔
      (c.toNat = 32 ∨ c.toNat = 9 ∨ c.toNat = 10 ∨ c.toNat = 13 ∨
        c.toNat = 11 ∨ c.toNat = 12) := by
  simp only [isPySpace, Bool.or_eq_true, decide_eq_true_eq]
  constructor
  · rintro (((((rfl | rfl) | rfl) | rfl) | rfl) | rfl) <;> simp
  · rintro (h | h | h | h | h | h) <;>
      [skip; skip; skip; skip; skip; skip] <;>
      first
        | exact Or.inl (Or.inl (Or.inl (Or.inl (Or.inl
            (char_eq_of_toNat_eq (by simpa using h))))))
        | exact Or.inl (Or.inl (Or.inl (Or.inl (Or.inr
            (char_eq_of_toNat_eq (by simpa using h))))))
        | exact Or.inl (Or.inl (Or.inl (Or.inr
            (char_eq_of_toNat_eq (by simpa using h)))))
        | exact Or.inl (Or.inl (Or.inr (char_eq_of_toNat_eq (by simpa using h))))
        | exact Or.inl (Or.inr (char_eq_of_toNat_eq (by simpa using h)))
        | exact Or.inr (char_eq_of_toNat_eq (by simpa using h))

lemma isAsciiAlpha_iff_toNat {c : Char} :
    isAsciiAlpha c = true ↔
      ((65 ≤ c.toNat ∧ c.toNat ≤ 90) ∨ (97 ≤ c.toNat ∧ c.toNat ≤ 122)) := by
  simp only [isAsciiAlpha, Bool.or_eq_true, Bool.and_eq_true, decide_eq_true_eq,
    char_le_iff]
  constructor
  · rintro (⟨h1, h2⟩ | ⟨h1, h2⟩)
    · exact Or.inl ⟨by simpa using h1, by simpa using h2⟩
    · exact Or.inr ⟨by simpa using h1, by simpa using h2⟩
  · rintro (⟨h1, h2⟩ | ⟨h1, h2⟩)
    · exact Or.inl ⟨by simpa using h1, by simpa using h2⟩
    · exact Or.inr ⟨by simpa using h1, by simpa using h2⟩

lemma isPySpace_eq_false_of_upper {a : Char} (h : isUpperAlpha a = true) :
    isPySpace a = false := by
  have hb := upper_toNat h
  rw [Bool.eq_false_iff]
  intro hs
  have := isPySpace_iff_toNat.mp hs
  omega

lemma pyUpperChar_of_upper {a : Char} (h : isUpperAlpha a = true) :
    pyUpperChar a = a := by
  have hb := upper_toNat h
  unfold pyUpperChar
  have hc : ('a' ≤ a && a ≤ 'z') = false := by
    rw [Bool.eq_false_iff]
    intro hl
    have := lower_range hl
    omega
  simp [hc]

lemma isPySpace_pyUpperChar (c : Char) : isPySpace (pyUpperChar c) = isPySpace c := by
  unfold pyUpperChar
  by_cases hc : ('a' ≤ c && c ≤ 'z') = true
  · have hb := lower_range hc
    have hup : (Char.ofNat (c.toNat - 32)).toNat = c.toNat - 32 :=
      toNat_ofNat_of_lt (by omega)
    simp only [hc, if_true]
    rw [Bool.eq_iff_iff]
    constructor
    · intro h
      have := isPySpace_iff_toNat.mp h
      omega
    · intro h
      have := isPySpace_iff_toNat.mp h
      omega
  · simp [hc]

lemma isAsciiAlpha_pyUpperChar (c : Char) :
    isAsciiAlpha (pyUpperChar c) = isAsciiAlpha c := by
  unfold pyUpperChar
  by_cases hc : ('a' ≤ c && c ≤ 'z') = true
  · have hb := lower_range hc
    have hup : (Char.ofNat (c.toNat - 32)).toNat = c.toNat - 32 :=
      toNat_ofNat_of_lt (by omega)
    simp only [hc, if_true]
    rw [Bool.eq_iff_iff, isAsciiAlpha_iff_toNat, isAsciiAlpha_iff_toNat]
    omega
  · simp [hc]

lemma dropWhile_eq_self_of_forall {p : Char → Bool} {l : List Char}
    (h : ∀ c ∈ l, p c = false) : l.dropWhile p = l := by
  cases l with
  | nil => rfl
  | cons c cs => simp [List.dropWhile_cons, h c (by simp)]

lemma pyStrip_of_forall {l : List Char} (h : ∀ c ∈ l, isPySpace c = false) :
    pyStrip l = l := by
  unfold pyStrip
  rw [dropWhile_eq_self_of_forall h,
    dropWhile_eq_self_of_forall (fun c hc => h c (List.mem_reverse.mp hc)),
    List.reverse_reverse]

lemma pyStrip_map_upper (s : List Char) :
    pyStrip (s.map pyUpperChar) = (pyStrip s).map pyUpperChar := by
  have hp : (isPySpace ∘ pyUpperChar) = isPySpace := by
    funext c
    exact isPySpace_pyUpperChar c
  unfold pyStrip
  rw [List.dropWhile_map, hp, ← List.map_reverse, List.dropWhile_map, hp,
    ← List.map_reverse]

lemma isAsciiAlpha_of_upper {a : Char} (h : isUpperAlpha a = true) :
    isAsciiAlpha a = true := by
  simp only [isUpperAlpha, Bool.and_eq_true] at h
  simp only [isAsciiAlpha, Bool.or_eq_true, Bool.and_eq_true]
  exact Or.inl h

lemma pyStrip_upper_list {l : List Char} (h : l.all isUpperAlpha = true) :
    pyStrip (l.map pyUpperChar) = l := by
  rw [List.all_eq_true] at h
  have hmap : l.map pyUpperChar = l := by
    have : l.map pyUpperChar = l.map id :=
      List.map_congr_left (fun a ha => pyUpperChar_of_upper (h a ha))
    simpa using this
  rw [hmap]
  exact pyStrip_of_forall (fun c hc => isPySpace_eq_false_of_upper (h c hc))

lemma col_upper_eval {l : List Char} (h : l.all isUpperAlpha = true)
    (h1 : l ≠ []) (h2 : l.length ≤ 2) :
    column_letter_to_index l =
      Except.ok ((l.foldl (fun r c => r * 26 + (c.toNat - 64)) 0) - 1) := by
  unfold column_letter_to_index
  simp only [pyStrip_upper_list h]
  have halpha : l.all isAsciiAlpha = true := by
    rw [List.all_eq_true] at h ⊢
    exact fun c hc => isAsciiAlpha_of_upper (h c hc)
  have hne : l.isEmpty = false := by
    simpa [List.isEmpty_iff] using h1
  simp [hne, halpha, Nat.not_lt.mpr h2]

lemma col_single {a : Char} (h : isUpperAlpha a = true) :
    column_letter_to_index [a] = Except.ok (a.toNat - 65) := by
  rw [col_upper_eval (by simp [h]) (by simp) (by simp)]
  have hb := upper_toNat h
  congr 1
  simp only [List.foldl_cons, List.foldl_nil]
  omega

lemma col_pair {a b : Char} (ha : isUpperAlpha a = true)
    (hb : isUpperAlpha b = true) :
    column_letter_to_index [a, b] =
      Except.ok ((a.toNat - 64) * 26 + (b.toNat - 64) - 1) := by
  rw [col_upper_eval (by simp [ha, hb]) (by simp) (by simp)]
  have hba := upper_toNat ha
  have hbb := upper_toNat hb
  congr 1
  simp only [List.foldl_cons, List.foldl_nil]
  omega

lemma col_isOk_iff (s : List Char) :
    (column_letter_to_index s).isOk = true ↔
      ((pyStrip s).length = 1 ∨ (pyStrip s).length = 2) ∧
        (pyStrip s).all isAsciiAlpha = true := by
  simp only [column_letter_to_index]
  rw [pyStrip_map_upper]
  have hall2 : ((pyStrip s).map pyUpperChar).all isAsciiAlpha =
      (pyStrip s).all isAsciiAlpha := by
    rw [List.all_map]
    congr 1
    funext c
    exact isAsciiAlpha_pyUpperChar c
  have hemp2 : ((pyStrip s).map pyUpperChar).isEmpty = (pyStrip s).isEmpty := by
    cases hps : pyStrip s <;> simp
  rw [hall2, hemp2, List.length_map]
  cases hcase : (!(!(pyStrip s).isEmpty && (pyStrip s).all isAsciiAlpha) ||
      decide ((pyStrip s).length > 2)) with
  | true =>
    simp only [hcase, if_true, Except.isOk, Except.toBool, Bool.false_eq_true,
      false_iff]
    simp only [Bool.or_eq_true, Bool.not_eq_true', Bool.and_eq_false_iff,
      Bool.not_eq_false, decide_eq_true_eq] at hcase
    rintro ⟨hl, ha⟩
    rcases hcase with (hc | hc) | hc
    · have hnil : pyStrip s = [] := by
        cases hps : pyStrip s with
        | nil => rfl
        | cons x xs => rw [hps] at hc; simp at hc
      rw [hnil] at hl
      simp at hl
    · rw [ha] at hc
      simp at hc
    · omega
  | false =>
    simp only [hcase, if_false, Bool.false_eq_true, Except.isOk, Except.toBool,
      true_iff]
    have hX : (!(!(pyStrip s).isEmpty && (pyStrip s).all isAsciiAlpha)) = false := by
      cases hx : (!(!(pyStrip s).isEmpty && (pyStrip s).all isAsciiAlpha)) with
      | false => rfl
      | true => rw [hx] at hcase; simp at hcase
    have hY : decide ((pyStrip s).length > 2) = false := by
      cases hy : decide ((pyStrip s).length > 2) with
      | false => rfl
      | true => rw [hy] at hcase; simp at hcase
    have hAnd : (!(pyStrip s).isEmpty && (pyStrip s).all isAsciiAlpha) = true := by
      cases hz : (!(pyStrip s).isEmpty && (pyStrip s).all isAsciiAlpha) with
      | true => rfl
      | false => rw [hz] at hX; simp at hX
    rw [Bool.and_eq_true] at hAnd
    obtain ⟨hne, hall⟩ := hAnd
    have hne2 : pyStrip s ≠ [] := by
      intro h0
      rw [h0] at hne
      simp at hne
    have hlen2 : (pyStrip s).length ≤ 2 := by
      have : ¬ ((pyStrip s).length > 2) := by simpa using hY
      omega
    have hlen0 : (pyStrip s).length ≠ 0 := by
      intro h0
      rw [List.length_eq_zero] at h0
      exact hne2 h0
    exact ⟨by omega, hall⟩

lemma colPattern_shape {s : List Char} (h : isColPattern s = true) :
    (∃ a, isUpperAlpha a = true ∧ s = [a]) ∨
      (∃ a b, isUpperAlpha a = true ∧ isUpperAlpha b = true ∧ s = [a, b]) := by
  simp only [isColPattern, Bool.and_eq_true, Bool.or_eq_true,
    decide_eq_true_eq, List.all_eq_true] at h
  obtain ⟨hlen, hall⟩ := h
  match s, hlen with
  | [a], _ =>
    exact Or.inl ⟨a, hall a (by simp), rfl⟩
  | [a, b], _ =>
    exact Or.inr ⟨a, b, hall a (by simp), hall b (by simp), rfl⟩

lemma col_injective {s t : List Char} (hs : isColPattern s = true)
    (ht : isColPattern t = true)
    (h : column_letter_to_index s = column_letter_to_index t) : s = t := by
  rcases colPattern_shape hs with ⟨a, ha, rfl⟩ | ⟨a, b, ha, hb, rfl⟩ <;>
    rcases colPattern_shape ht with ⟨c, hc, rfl⟩ | ⟨c, d, hc, hd, rfl⟩
  · rw [col_single ha, col_single hc] at h
    have hv : a.toNat - 65 = c.toNat - 65 := by
      simpa using h
    have hba := upper_toNat ha
    have hbc := upper_toNat hc
    have : a.toNat = c.toNat := by omega
    rw [char_eq_of_toNat_eq this]
  · rw [col_single ha, col_pair hc hd] at h
    have hv : a.toNat - 65 = (c.toNat - 64) * 26 + (d.toNat - 64) - 1 := by
      simpa using h
    have hba := upper_toNat ha
    have hbc := upper_toNat hc
    have hbd := upper_toNat hd
    omega
  · rw [col_pair ha hb, col_single hc] at h
    have hv : (a.toNat - 64) * 26 + (b.toNat - 64) - 1 = c.toNat - 65 := by
      simpa using h
    have hba := upper_toNat ha
    have hbb := upper_toNat hb
    have hbc := upper_toNat hc
    omega
  · rw [col_pair ha hb, col_pair hc hd] at h
    have hv : (a.toNat - 64) * 26 + (b.toNat - 64) - 1 =
        (c.toNat - 64) * 26 + (d.toNat - 64) - 1 := by
      simpa using h
    have hba := upper_toNat ha
    have hbb := upper_toNat hb
    have hbc := upper_toNat hc
    have hbd := upper_toNat hd
    have hac : a.toNat = c.toNat := by omega
    have hbd2 : b.toNat = d.toNat := by omega
    rw [char_eq_of_toNat_eq hac, char_eq_of_toNat_eq hbd2]

lemma zip_fold_entries (detect : List Nat → List Char) :
    ∀ (imgs : List ImageData) (st : ZipState),
      (imgs.foldl (zipStep detect) st).entries =
        st.entries ++ imgs.map
          (fun im => ("images/".data ++ fnameOf detect im, im.image_bytes))
  | [], st => by simp
  | im :: ims, st => by
    rw [List.foldl_cons, zip_fold_entries detect ims (zipStep detect st im)]
    unfold zipStep
    split <;> simp

lemma zip_fold_counts (detect : List Nat → List Char) :
    ∀ (imgs : List ImageData) (st : ZipState),
      (imgs.foldl (zipStep detect) st).saved_count +
          (imgs.foldl (zipStep detect) st).duplicate_count =
        st.saved_count + st.duplicate_count + imgs.length
  | [], st => by simp
  | im :: ims, st => by
    rw [List.foldl_cons, zip_fold_counts detect ims (zipStep detect st im)]
    unfold zipStep
    split <;> simp <;> omega

lemma zip_fold_rows (detect : List Nat → List Char) :
    ∀ (imgs : List ImageData) (st : ZipState),
      (imgs.foldl (zipStep detect) st).manifest_rows =
        st.manifest_rows ++ rowsFrom detect st.seen_names imgs
  | [], st => by simp [rowsFrom]
  | im :: ims, st => by
    rw [List.foldl_cons, zip_fold_rows detect ims (zipStep detect st im)]
    unfold zipStep
    rw [rowsFrom]
    split <;> simp

lemma rowsFrom_length (detect : List Nat → List Char) :
    ∀ (imgs : List ImageData) (seen : List (List Char)),
      (rowsFrom detect seen imgs).length = imgs.length
  | [], seen => by simp [rowsFrom]
  | im :: ims, seen => by
    rw [rowsFrom]
    split <;> simp [rowsFrom_length detect ims]

lemma rowsFrom_getElem (detect : List Nat → List Char) :
    ∀ (imgs : List ImageData) (seen : List (List Char)) (i : Nat)
      (im : ImageData), imgs[i]? = Option.some im →
      (rowsFrom detect seen imgs)[i]? = Option.some (manifestRowOf detect im
        (if fnameOf detect im ∈ seen ∨
            fnameOf detect im ∈ (imgs.take i).map (fnameOf detect)
         then "Duplicate".data else "Saved".data))
  | [], seen, i, im => by simp
  | x :: xs, seen, 0, im => by
    intro h
    rw [List.getElem?_cons_zero] at h
    obtain rfl : x = im := by simpa using h
    rw [rowsFrom]
    split
    · rename_i hmem
      rw [List.getElem?_cons_zero]
      simp [hmem]
    · rename_i hmem
      rw [List.getElem?_cons_zero]
      simp [hmem]
  | x :: xs, seen, i + 1, im => by
    intro h
    rw [List.getElem?_cons_succ] at h
    rw [rowsFrom]
    split
    · rename_i hmem
      rw [List.getElem?_cons_succ, rowsFrom_getElem detect xs seen i im h]
      congr 1
      apply congrArg (manifestRowOf detect im)
      apply if_congr ?_ rfl rfl
      rw [List.take_succ_cons, List.map_cons, List.mem_cons]
      constructor
      · rintro (hs | ht)
        · exact Or.inl hs
        · exact Or.inr (Or.inr ht)
      · rintro (hs | (heq | ht))
        · exact Or.inl hs
        · rw [heq]
          exact Or.inl hmem
        · exact Or.inr ht
    · rename_i hmem
      rw [List.getElem?_cons_succ,
        rowsFrom_getElem detect xs (fnameOf detect x :: seen) i im h]
      congr 1
      apply congrArg (manifestRowOf detect im)
      apply if_congr ?_ rfl rfl
      rw [List.take_succ_cons, List.map_cons, List.mem_cons, List.mem_cons]
      tauto

lemma create_eq (detect : List Nat → List Char) (images : List ImageData)
    (h : images ≠ []) :
    create_images_zip detect images = Except.ok
      { imageEntries :=
          (images.foldl (zipStep detect) ⟨[], [], 0, 0, []⟩).entries
        report :=
          csvHeader :: (images.foldl (zipStep detect) ⟨[], [], 0, 0, []⟩).manifest_rows
        saved_count :=
          (images.foldl (zipStep detect) ⟨[], [], 0, 0, []⟩).saved_count
        duplicate_count :=
          (images.foldl (zipStep detect) ⟨[], [], 0, 0, []⟩).duplicate_count } := by
  unfold create_images_zip
  rw [if_neg h]

lemma foldl_extract_append (parse : List Nat → Option Workbook)
    (ic nc : List Char) :
    ∀ (files : List (List Char × List Nat)) (acc : List ImageData),
      files.foldl (fun acc fd =>
        match extract_images_from_excel parse fd.2 ic nc with
        | Except.ok images => acc ++ images
        | Except.error _ => acc) acc = acc ++ surviving parse files ic nc
  | [], acc => by simp [surviving]
  | fd :: fds, acc => by
    rw [List.foldl_cons, foldl_extract_append parse ic nc fds _]
    unfold surviving
    show _ = acc ++ ((match extract_images_from_excel parse fd.2 ic nc with
      | Except.ok images => images
      | Except.error _ => []) ++ fds.flatMap _)
    cases hex : extract_images_from_excel parse fd.2 ic nc with
    | ok images => simp [surviving, List.append_assoc]
    | error e => simp [surviving]

lemma allImagesOf_eq_surviving (parse : List Nat → Option Workbook)
    (files : List (List Char × List Nat)) (ic nc : List Char) :
    allImagesOf parse files ic nc = surviving parse files ic nc := by
  unfold allImagesOf
  rw [foldl_extract_append parse ic nc files []]
  rw [List.nil_append]

lemma process_eq (parse : List Nat → Option Workbook)
    (detect : List Nat → List Char) (files : List (List Char × List Nat))
    (ic nc : List Char) :
    process_excel_files parse detect files ic nc =
      if surviving parse files ic nc = []
      then Except.error "No images found in any of the uploaded files"
      else
        match create_images_zip detect (surviving parse files ic nc) with
        | Except.ok z => Except.ok (z, (surviving parse files ic nc).length)
        | Except.error e => Except.error e := by
  unfold process_excel_files
  rw [allImagesOf_eq_surviving]

lemma process_error_of_surviving_nil {parse : List Nat → Option Workbook}
    {detect : List Nat → List Char} {files : List (List Char × List Nat)}
    {ic nc : List Char} (h : surviving parse files ic nc = []) :
    process_excel_files parse detect files ic nc =
      Except.error "No images found in any of the uploaded files" := by
  rw [process_eq, if_pos h]

lemma process_ok_of_surviving_ne {parse : List Nat → Option Workbook}
    {detect : List Nat → List Char} {files : List (List Char × List Nat)}
    {ic nc : List Char} (h : surviving parse files ic nc ≠ []) :
    ∃ out, create_images_zip detect (surviving parse files ic nc) =
        Except.ok out ∧
      process_excel_files parse detect files ic nc =
        Except.ok (out, (surviving parse files ic nc).length) := by
  refine ⟨_, create_eq detect _ h, ?_⟩
  rw [process_eq, if_neg h, create_eq detect _ h]

lemma surviving_cons_error {parse : List Nat → Option Workbook}
    {fd : List Char × List Nat} {files : List (List Char × List Nat)}
    {ic nc : List Char} {e : String}
    (hex : extract_images_from_excel parse fd.2 ic nc = Except.error e) :
    surviving parse (fd :: files) ic nc = surviving parse files ic nc := by
  unfold surviving
  show ((match extract_images_from_excel parse fd.2 ic nc with
    | Except.ok images => images
    | Except.error _ => []) ++ files.flatMap _) = _
  rw [hex]
  rw [List.nil_append]

lemma extract_error_of_bad_column {parse : List Nat → Option Workbook}
    {bs : List Nat} {ic nc : List Char}
    (h : (column_letter_to_index ic).isOk = false ∨
      (column_letter_to_index nc).isOk = false) :
    ∃ e, extract_images_from_excel parse bs ic nc = Except.error e := by
  unfold extract_images_from_excel
  cases hic : column_letter_to_index ic with
  | error e => exact ⟨_, rfl⟩
  | ok v =>
    cases hnc : column_letter_to_index nc with
    | error e2 => exact ⟨_, rfl⟩
    | ok w =>
      exfalso
      rcases h with h | h
      · rw [hic] at h
        simp [Except.isOk, Except.toBool] at h
      · rw [hnc] at h
        simp [Except.isOk, Except.toBool] at h

lemma surviving_nil_of_bad_column {parse : List Nat → Option Workbook}
    {ic nc : List Char}
    (h : (column_letter_to_index ic).isOk = false ∨
      (column_letter_to_index nc).isOk = false) :
    ∀ files : List (List Char × List Nat), surviving parse files ic nc = []
  | [] => rfl
  | fd :: fds => by
    obtain ⟨e, hex⟩ := @extract_error_of_bad_column parse fd.2 ic nc h
    rw [surviving_cons_error hex]
    exact surviving_nil_of_bad_column h fds

lemma mem_collapseWs {c : Char} : ∀ (b : Bool) (l : List Char),
    c ∈ collapseWs b l → c = '_' ∨ (c ∈ l ∧ isPySpace c = false)
  | b, [] => by simp [collapseWs]
  | b, x :: xs => by
    simp only [collapseWs]
    split
    · rename_i hx
      split
      · intro hmem
        rcases mem_collapseWs true xs hmem with h | ⟨h1, h2⟩
        · exact Or.inl h
        · exact Or.inr ⟨List.mem_cons_of_mem _ h1, h2⟩
      · intro hmem
        rcases List.mem_cons.mp hmem with rfl | hmem2
        · exact Or.inl rfl
        · rcases mem_collapseWs true xs hmem2 with h | ⟨h1, h2⟩
          · exact Or.inl h
          · exact Or.inr ⟨List.mem_cons_of_mem _ h1, h2⟩
    · rename_i hx
      intro hmem
      rcases List.mem_cons.mp hmem with rfl | hmem2
      · exact Or.inr ⟨List.mem_cons_self _ _, by simpa using hx⟩
      · rcases mem_collapseWs false xs hmem2 with h | ⟨h1, h2⟩
        · exact Or.inl h
        · exact Or.inr ⟨List.mem_cons_of_mem _ h1, h2⟩

lemma normalize_image_of_strip_empty {s : List Char} (h : pyStrip s = []) :
    normalize_filename s = "image".data := by
  unfold normalize_filename
  simp [h]

lemma normalize_eq_branch (s : List Char) :
    normalize_filename s =
      if pyStrip s = [] then "image".data
      else if normCleaned s = [] then "image".data else normCleaned s := rfl

lemma normalize_length_le (s : List Char) : (normalize_filename s).length ≤ 50 := by
  rw [normalize_eq_branch]
  by_cases h : pyStrip s = []
  · simp [h]
  · rw [if_neg h]
    split
    · simp
    · rw [normCleaned, List.length_take]
      omega

lemma normalize_length_pos (s : List Char) : 0 < (normalize_filename s).length := by
  rw [normalize_eq_branch]
  by_cases h : pyStrip s = []
  · simp [h]
  · rw [if_neg h]
    split
    · simp
    · rename_i h2
      exact List.length_pos.mpr h2

lemma normalize_mem {s : List Char} {c : Char} (h : c ∈ normalize_filename s) :
    invalidChar c = false ∧ isPySpace c = false := by
  have himg : c ∈ "image".data → invalidChar c = false ∧ isPySpace c = false := by
    intro hm
    simp only [String.data] at hm
    fin_cases hm <;> exact ⟨by decide, by decide⟩
  rw [normalize_eq_branch] at h
  by_cases hs : pyStrip s = []
  · rw [if_pos hs] at h
    exact himg h
  · rw [if_neg hs] at h
    split at h
    · exact himg h
    · rw [normCleaned] at h
      have hcol : c ∈ collapseWs false
          ((pyStrip s).filter (fun x => !invalidChar x)) :=
        List.take_subset _ _ h
      rcases mem_collapseWs _ _ hcol with rfl | ⟨h1, h2⟩
      · exact ⟨by decide, by decide⟩
      · have := List.mem_filter.mp h1
        refine ⟨?_, h2⟩
        have hinv := this.2
        simpa using hinv

lemma extract_ok_parse {parse : List Nat → Option Workbook} {bs : List Nat}
    {ic nc : List Char} {idx nidx : Nat} {wb : Workbook}
    (hic : column_letter_to_index ic = Except.ok idx)
    (hnc : column_letter_to_index nc = Except.ok nidx)
    (hp : parse bs = Option.some wb) :
    extract_images_from_excel parse bs ic nc = Except.ok
      (wb.sheets.flatMap (fun sheet =>
        sheet.images.filterMap (fun img =>
          if img.anchorCol = idx then
            Option.some
              { name_raw :=
                  if truthy (sheet.cell (img.anchorRow + 1) (nidx + 1)) then
                    pyStr (sheet.cell (img.anchorRow + 1) (nidx + 1))
                  else "image_".data ++ (toString img.anchorRow).data
                image_bytes := img.bytes
                sheet := sheet.name
                row := img.anchorRow + 1 }
          else Option.none))) := by
  unfold extract_images_from_excel
  rw [hic, hnc, hp]

lemma extract_mem_of_matching {parse : List Nat → Option Workbook}
    {bs : List Nat} {ic nc : List Char} {idx nidx : Nat} {wb : Workbook}
    {sheet : Sheet} {img : AnchoredImage}
    (hic : column_letter_to_index ic = Except.ok idx)
    (hnc : column_letter_to_index nc = Except.ok nidx)
    (hp : parse bs = Option.some wb)
    (hs : sheet ∈ wb.sheets) (hi : img ∈ sheet.images)
    (hcol : img.anchorCol = idx)
    (hcell : truthy (sheet.cell (img.anchorRow + 1) (nidx + 1)) = false) :
    ∃ l, extract_images_from_excel parse bs ic nc = Except.ok l ∧
      ({ name_raw := "image_".data ++ (toString img.anchorRow).data
         image_bytes := img.bytes
         sheet := sheet.name
         row := img.anchorRow + 1 } : ImageData) ∈ l := by
  refine ⟨_, extract_ok_parse hic hnc hp, ?_⟩
  rw [List.mem_flatMap]
  refine ⟨sheet, hs, ?_⟩
  rw [List.mem_filterMap]
  exact ⟨img, hi, by simp [hcol, hcell]⟩

/-- C5, counterexample: `normalize_filename` removes the characters
`<>:"/\|?*` before replacing whitespace runs, so the `/` of `"Part #1/2"` is
deleted outright and the result is `"Part_#12"`, not the spec's
`"Part_#1_2"`. -/
theorem c5_normalize_counterexample :
    normalize_filename "Part #1/2".data = "Part_#12".data ∧
      "Part_#12".data ≠ "Part_#1_2".data :=
  ⟨by rfl, by decide⟩

/-- C5 (amended): `normalize_filename` returns `"image"` for empty or
whitespace-only input; otherwise it trims surrounding whitespace, removes
every character in `<>:"/\|?*`, replaces each run of whitespace with one
underscore, truncates to at most 50 characters, and returns `"image"` when
the cleaned result is empty — so the output is never empty, never longer
than 50 characters, and never contains a removed character or whitespace;
in particular `normalize_filename("Part #1/2")` equals `"Part_#12"` (the
slash is removed, not turned into a separator). -/
theorem c5_normalize_amended :
    normalize_filename [] = "image".data ∧
      normalize_filename "  ".data = "image".data ∧
      (∀ s, pyStrip s = [] → normalize_filename s = "image".data) ∧
      (∀ s, (normalize_filename s).length ≤ 50) ∧
      (∀ s, 0 < (normalize_filename s).length) ∧
      (∀ s c, c ∈ normalize_filename s →
        invalidChar c = false ∧ isPySpace c = false) ∧
      normalize_filename "Part #1/2".data = "Part_#12".data :=
  ⟨by rfl, by rfl,
    fun s h => normalize_image_of_strip_empty h,
    normalize_length_le,
    normalize_length_pos,
    fun s c h => normalize_mem h,
    by rfl⟩

/-- C5 witness: the amended theorem applied at concrete inputs. -/
theorem c5_normalize_amended_witness :
    normalize_filename [' ', '\t', ' '] = "image".data ∧
      (invalidChar 'P' = false ∧ isPySpace 'P' = false) :=
  ⟨c5_normalize_amended.2.2.1 [' ', '\t', ' '] (by rfl),
    c5_normalize_amended.2.2.2.2.2.1 "Part #1/2".data 'P' (by decide)⟩

/-- C4, counterexample: `column_letter_to_index` upper-cases and strips its
input before validating, so it is not injective on `[A-Za-z]{1,2}` (`"a"` and
`"A"` are distinct strings that both map to 0), and the whitespace-padded
string `" A "`, which does not match `[A-Za-z]{1,2}`, succeeds instead of
failing with `InvalidColumn`. -/
theorem c4_column_codec_counterexample :
    column_letter_to_index "a".data = Except.ok 0 ∧
      column_letter_to_index "A".data = Except.ok 0 ∧
      "a".data ≠ "A".data ∧
      column_letter_to_index " A ".data = Except.ok 0 :=
  ⟨by rfl, by rfl, by decide, by rfl⟩

/-- C4 (amended): `column_letter_to_index` computes the base-26 value with
digits 1..26 per letter minus one (`"A"`→0, `"Z"`→25, `"AA"`→26, `"AZ"`→51;
a single upper-case letter `a` maps to `ord(a)-65`, a pair `a b` to
`(ord(a)-64)*26 + (ord(b)-64) - 1`); it is injective on upper-case strings
matching `[A-Z]{1,2}` (mixed-case spellings of the same letters collide
because the input is upper-cased first); and it succeeds exactly when the
input, after stripping surrounding whitespace, is one or two alphabetic
characters — otherwise it fails with the `InvalidColumn` error. -/
theorem c4_column_codec_amended :
    column_letter_to_index "A".data = Except.ok 0 ∧
      column_letter_to_index "Z".data = Except.ok 25 ∧
      column_letter_to_index "AA".data = Except.ok 26 ∧
      column_letter_to_index "AZ".data = Except.ok 51 ∧
      (∀ a, isUpperAlpha a = true →
        column_letter_to_index [a] = Except.ok (a.toNat - 65)) ∧
      (∀ a b, isUpperAlpha a = true → isUpperAlpha b = true →
        column_letter_to_index [a, b] =
          Except.ok ((a.toNat - 64) * 26 + (b.toNat - 64) - 1)) ∧
      (∀ s t, isColPattern s = true → isColPattern t = true →
        column_letter_to_index s = column_letter_to_index t → s = t) ∧
      (∀ s, (column_letter_to_index s).isOk = true ↔
        (((pyStrip s).length = 1 ∨ (pyStrip s).length = 2) ∧
          (pyStrip s).all isAsciiAlpha = true)) :=
  ⟨by rfl, by rfl, by rfl, by rfl,
    fun a ha => col_single ha,
    fun a b ha hb => col_pair ha hb,
    fun s t hs ht h => col_injective hs ht h,
    fun s => col_isOk_iff s⟩

/-- C4 witness: the amended theorem applied at concrete inputs. -/
theorem c4_column_codec_amended_witness :
    column_letter_to_index ['B', 'C'] = Except.ok 54 ∧
      (column_letter_to_index " A ".data).isOk = true :=
  ⟨by
    rw [c4_column_codec_amended.2.2.2.2.2.1 'B' 'C' (by decide) (by decide)]
    rfl,
   (c4_column_codec_amended.2.2.2.2.2.2.2 " A ".data).mpr (by decide)⟩

/-- C1: for every non-empty input list of `ImageData`, `create_images_zip`
succeeds with `saved_count + duplicate_count` equal to the input length, and
the `report.csv` it writes has exactly `length + 1` records: the header
`sheet,row,part_name,filename,action` followed by one row per input image,
in the same order as the input sequence. -/
theorem c1_zip_counters_and_report (detect : List Nat → List Char)
    (images : List ImageData) (h : images ≠ []) :
    ∃ out, create_images_zip detect images = Except.ok out ∧
      out.saved_count + out.duplicate_count = images.length ∧
      out.report.length = images.length + 1 ∧
      out.report[0]? = Option.some csvHeader ∧
      (∀ i im, images[i]? = Option.some im →
        ∃ fname action, out.report[i + 1]? = Option.some
          [im.sheet, (toString im.row).data, im.name_raw, fname, action]) := by
  refine ⟨_, create_eq detect images h, ?_, ?_, ?_, ?_⟩
  · simpa using zip_fold_counts detect images ⟨[], [], 0, 0, []⟩
  · have hr := zip_fold_rows detect images ⟨[], [], 0, 0, []⟩
    simp only [List.nil_append] at hr
    simp [hr, rowsFrom_length]
  · dsimp only
    rw [List.getElem?_cons_zero]
  · intro i im him
    have hr := zip_fold_rows detect images ⟨[], [], 0, 0, []⟩
    simp only [List.nil_append] at hr
    dsimp only
    rw [List.getElem?_cons_succ, hr,
      rowsFrom_getElem detect images [] i im him]
    exact ⟨fnameOf detect im, _, rfl⟩

/-- C1 witness: the theorem applied to the spec scenario's three images. -/
theorem c1_zip_counters_and_report_witness :
    ∃ out, create_images_zip detectPng
      [⟨"X1".data, [7], "S".data, 2⟩, ⟨"image_2".data, [8], "S".data, 3⟩,
        ⟨"X1".data, [9], "S".data, 4⟩] = Except.ok out ∧
      out.saved_count + out.duplicate_count = 3 ∧
      out.report.length = 4 ∧
      out.report[0]? = Option.some csvHeader ∧
      (∀ i im, [⟨"X1".data, [7], "S".data, 2⟩,
          (⟨"image_2".data, [8], "S".data, 3⟩ : ImageData),
          ⟨"X1".data, [9], "S".data, 4⟩][i]? = Option.some im →
        ∃ fname action, out.report[i + 1]? = Option.some
          [im.sheet, (toString im.row).data, im.name_raw, fname, action]) :=
  c1_zip_counters_and_report detectPng _ (by decide)

/-- C2: `process_excel_files` scans the files in the supplied order; a file
whose scan raises is skipped without surfacing its failure; the result is the
archive of the surviving files' images concatenated in order; and it fails
with the NoImagesFound error exactly when that combined sequence is empty
after attempting every file. -/
theorem c2_batch_fault_tolerance (parse : List Nat → Option Workbook)
    (detect : List Nat → List Char) (files : List (List Char × List Nat))
    (ic nc : List Char) :
    (∀ fd e, extract_images_from_excel parse fd.2 ic nc = Except.error e →
      process_excel_files parse detect (fd :: files) ic nc =
        process_excel_files parse detect files ic nc) ∧
    (process_excel_files parse detect files ic nc =
        Except.error "No images found in any of the uploaded files" ↔
      surviving parse files ic nc = []) ∧
    (surviving parse files ic nc ≠ [] →
      ∃ out, create_images_zip detect (surviving parse files ic nc) =
          Except.ok out ∧
        process_excel_files parse detect files ic nc =
          Except.ok (out, (surviving parse files ic nc).length)) := by
  refine ⟨?_, ?_, ?_⟩
  · intro fd e hex
    rw [process_eq, process_eq, surviving_cons_error hex]
  · constructor
    · intro hp
      by_contra hne
      obtain ⟨out, _, hok⟩ := process_ok_of_surviving_ne hne
      rw [hok] at hp
      exact absurd hp (by simp)
    · exact process_error_of_surviving_nil
  · exact process_ok_of_surviving_ne

/-- C2 witness: a corrupt first file plus a valid second file — the batch
result equals the result for the valid file alone, and succeeds with two
images never surfacing the first file's failure. -/
theorem c2_batch_fault_tolerance_witness :
    process_excel_files parseFix detectPng
        [("bad".data, [0]), ("good".data, [2])] "B".data "C".data =
      process_excel_files parseFix detectPng [("good".data, [2])]
        "B".data "C".data ∧
    surviving parseFix [("good".data, [2])] "B".data "C".data ≠ [] :=
  ⟨(c2_batch_fault_tolerance parseFix detectPng [("good".data, [2])]
      "B".data "C".data).1 ("bad".data, [0])
      "Failed to process Excel file: could not load workbook" (by rfl),
    by decide⟩

/-- C3: `create_images_zip` marks an image `Saved` exactly when no earlier
image in the sequence produced the same candidate filename and `Duplicate`
otherwise; every image's bytes are written under `images/<filename>`
regardless, so the final content of each archive path is the bytes of the
last image with that filename (last-write-wins, no renaming). -/
theorem c3_dedup_last_write_wins (detect : List Nat → List Char)
    (images : List ImageData) (h : images ≠ []) :
    ∃ out, create_images_zip detect images = Except.ok out ∧
      (∀ i im, images[i]? = Option.some im →
        out.report[i + 1]? = Option.some (manifestRowOf detect im
          (if fnameOf detect im ∈ (images.take i).map (fnameOf detect)
           then "Duplicate".data else "Saved".data))) ∧
      out.imageEntries = images.map
        (fun im => ("images/".data ++ fnameOf detect im, im.image_bytes)) ∧
      (∀ f, lastContent out.imageEntries ("images/".data ++ f) =
        ((images.filter (fun im => fnameOf detect im = f)).getLast?).map
          (fun im => im.image_bytes)) := by
  refine ⟨_, create_eq detect images h, ?_, ?_, ?_⟩
  · intro i im him
    have hr := zip_fold_rows detect images ⟨[], [], 0, 0, []⟩
    simp only [List.nil_append] at hr
    dsimp only
    rw [List.getElem?_cons_succ, hr,
      rowsFrom_getElem detect images [] i im him]
    congr 2
    apply if_congr ?_ rfl rfl
    simp
  · simpa using zip_fold_entries detect images ⟨[], [], 0, 0, []⟩
  · intro f
    have he := zip_fold_entries detect images ⟨[], [], 0, 0, []⟩
    simp only [List.nil_append] at he
    dsimp only
    rw [he, lastContent, List.map_filter]
    have hp : ((fun e => decide (e.1 = "images/".data ++ f)) ∘
        (fun im => ("images/".data ++ fnameOf detect im, im.image_bytes))) =
        (fun im => decide (fnameOf detect im = f)) := by
      funext im
      simp [List.append_right_inj]
    rw [hp, List.getLast?_map, Option.map_map]
    rfl

/-- C3 witness: the theorem applied to the spec scenario's three images. -/
theorem c3_dedup_last_write_wins_witness :
    ∃ out, create_images_zip detectPng
      [⟨"X1".data, [7], "S".data, 2⟩, ⟨"image_2".data, [8], "S".data, 3⟩,
        ⟨"X1".data, [9], "S".data, 4⟩] = Except.ok out ∧
      out.report[3]? = Option.some (manifestRowOf detectPng
        ⟨"X1".data, [9], "S".data, 4⟩ "Duplicate".data) ∧
      lastContent out.imageEntries ("images/".data ++ "X1.png".data) =
        Option.some [9] := by
  obtain ⟨out, hout, hrows, hentries, hlast⟩ :=
    c3_dedup_last_write_wins detectPng
      [⟨"X1".data, [7], "S".data, 2⟩, ⟨"image_2".data, [8], "S".data, 3⟩,
        ⟨"X1".data, [9], "S".data, 4⟩] (by decide)
  refine ⟨out, hout, ?_, ?_⟩
  · have h2 := hrows 2 ⟨"X1".data, [9], "S".data, 4⟩ (by rfl)
    rw [h2]
    decide
  · have hl := hlast "X1.png".data
    rw [hl]
    decide

/-- C6, counterexample: the image anchored at 1-based row 3 (zero-based
anchor row 2) with an empty label cell is given the synthesized label
`image_2`, not `image_3`, while its recorded row number is 3 — the code uses
the zero-based anchor row in the synthesized name. -/
theorem c6_synth_label_counterexample :
    extract_images_from_excel parseFix [2] "B".data "C".data =
      Except.ok [{ name_raw := "image_2".data, image_bytes := [7],
                   sheet := "S".data, row := 3 }] ∧
      "image_2".data ≠ "image_3".data :=
  ⟨by rfl, by decide⟩

/-- C6 (amended): for every embedded image whose anchor column equals the
requested image column and whose label cell (same row, label column) is not
truthy, the scanner synthesizes the label `image_<r>` where `r` is the
image's zero-based anchor row (one less than the 1-based row number it
records alongside), and records the 1-based row number `r + 1`. -/
theorem c6_synth_label_amended (parse : List Nat → Option Workbook)
    (bs : List Nat) (ic nc : List Char) (idx nidx : Nat) (wb : Workbook)
    (sheet : Sheet) (img : AnchoredImage)
    (hic : column_letter_to_index ic = Except.ok idx)
    (hnc : column_letter_to_index nc = Except.ok nidx)
    (hp : parse bs = Option.some wb)
    (hs : sheet ∈ wb.sheets) (hi : img ∈ sheet.images)
    (hcol : img.anchorCol = idx)
    (hcell : truthy (sheet.cell (img.anchorRow + 1) (nidx + 1)) = false) :
    ∃ l, extract_images_from_excel parse bs ic nc = Except.ok l ∧
      ({ name_raw := "image_".data ++ (toString img.anchorRow).data
         image_bytes := img.bytes
         sheet := sheet.name
         row := img.anchorRow + 1 } : ImageData) ∈ l :=
  extract_mem_of_matching hic hnc hp hs hi hcol hcell

/-- C6 witness: the amended theorem applied to the empty-label fixture. -/
theorem c6_synth_label_amended_witness :
    ∃ l, extract_images_from_excel parseFix [2] "B".data "C".data =
        Except.ok l ∧
      ({ name_raw := "image_2".data, image_bytes := [7], sheet := "S".data,
         row := 3 } : ImageData) ∈ l :=
  c6_synth_label_amended parseFix [2] "B".data "C".data 1 2 wbEmptyLabel
    sheetEmptyLabel ⟨2, 1, [7]⟩ (by rfl) (by rfl) (by rfl)
    (List.mem_cons_self _ _) (List.mem_cons_self _ _) (by rfl) (by rfl)

/-- C7, counterexample: with malformed image-column letters `"ABC"` and a
valid workbook containing a matching image, `process_excel_files` does not
surface the InvalidColumn error: the per-file failure is swallowed like any
other and the batch fails with the NoImagesFound message instead. -/
theorem c7_invalid_column_counterexample :
    process_excel_files parseFix detectPng [("good".data, [1])]
        "ABC".data "C".data =
      Except.error "No images found in any of the uploaded files" ∧
      ("No images found in any of the uploaded files" : String) ≠
        "Failed to process Excel file: Invalid column letter: ABC" ∧
      ("No images found in any of the uploaded files" : String) ≠
        "Invalid column letter: ABC" :=
  ⟨by rfl, by decide, by decide⟩

/-- C7 (amended): when the image or name column letters are malformed,
every per-file scan fails with the wrapped InvalidColumn error, which
`process_excel_files` swallows like any other per-file failure; the batch
then always fails with the NoImagesFound error — InvalidColumn is never
surfaced to the caller. -/
theorem c7_invalid_column_amended (parse : List Nat → Option Workbook)
    (detect : List Nat → List Char) (files : List (List Char × List Nat))
    (ic nc : List Char)
    (h : (column_letter_to_index ic).isOk = false ∨
      (column_letter_to_index nc).isOk = false) :
    process_excel_files parse detect files ic nc =
      Except.error "No images found in any of the uploaded files" :=
  process_error_of_surviving_nil (surviving_nil_of_bad_column h files)

/-- C7 witness: the amended theorem applied at a malformed name column. -/
theorem c7_invalid_column_amended_witness :
    process_excel_files parseFix detectPng [("good".data, [1])]
        "B".data "CDE".data =
      Except.error "No images found in any of the uploaded files" :=
  c7_invalid_column_amended parseFix detectPng [("good".data, [1])]
    "B".data "CDE".data (Or.inr (by decide))

/-- C8, counterexample: `process_excel_files` performs no defensive check
for equal image and name columns: with both columns `"B"` it parses the
workbook and succeeds, extracting the image and labelling it from column B. -/
theorem c8_equal_columns_counterexample :
    process_excel_files parseFix detectPng [("f".data, [3])]
        "B".data "B".data =
      Except.ok
        ({ imageEntries := [("images/N7.png".data, [7])]
           report := [csvHeader,
             ["S".data, "2".data, "N7".data, "N7.png".data, "Saved".data]]
           saved_count := 1
           duplicate_count := 0 }, 1) := by rfl

/-- C8 (amended): the core entry point has no defensive equal-columns
rejection: with `imageColumnLetters = nameColumnLetters` it processes the
batch exactly as usual, succeeding whenever any matching images survive
(the equal-columns rejection exists only in the caller's frontend form
validation). -/
theorem c8_equal_columns_amended (parse : List Nat → Option Workbook)
    (detect : List Nat → List Char) (files : List (List Char × List Nat))
    (c : List Char) (h : surviving parse files c c ≠ []) :
    ∃ out, process_excel_files parse detect files c c =
      Except.ok (out, (surviving parse files c c).length) := by
  obtain ⟨out, _, hok⟩ := process_ok_of_surviving_ne h
  exact ⟨out, hok⟩

/-- C8 witness: the amended theorem applied to the equal-columns fixture. -/
theorem c8_equal_columns_amended_witness :
    ∃ out, process_excel_files parseFix detectPng [("f".data, [3])]
      "B".data "B".data =
        Except.ok (out, (surviving parseFix [("f".data, [3])]
          "B".data "B".data).length) :=
  c8_equal_columns_amended parseFix detectPng [("f".data, [3])] "B".data
    (by decide)

/-- C9: `create_images_zip` on an empty sequence fails with the EmptyInput
error rather than returning an empty archive; this error path exists even
though `process_excel_files` itself can only either succeed or fail with the
distinct NoImagesFound error (it never passes an empty sequence on). -/
theorem c9_empty_input_guard :
    (∀ detect, create_images_zip detect [] =
      Except.error "No images to process") ∧
    (∀ parse detect files ic nc,
      process_excel_files parse detect files ic nc =
        Except.error "No images found in any of the uploaded files" ∨
      ∃ out n, process_excel_files parse detect files ic nc =
        Except.ok (out, n)) ∧
    (("No images found in any of the uploaded files" ==
      "No images to process") = false) := by
  refine ⟨fun detect => rfl, ?_, by decide⟩
  intro parse detect files ic nc
  by_cases h : surviving parse files ic nc = []
  · exact Or.inl (process_error_of_surviving_nil h)
  · obtain ⟨out, _, hok⟩ := process_ok_of_surviving_ne h
    exact Or.inr ⟨out, _, hok⟩

/-- C10: a matching image whose label cell holds a falsy value (numeric 0,
False, or the empty string) is treated exactly like an empty cell: the
scanner records the synthesized `image_<r>` name instead of the string form
of the cell value. -/
theorem c10_falsy_label_synthesized (parse : List Nat → Option Workbook)
    (bs : List Nat) (ic nc : List Char) (idx nidx : Nat) (wb : Workbook)
    (sheet : Sheet) (img : AnchoredImage) (v : CellValue)
    (hic : column_letter_to_index ic = Except.ok idx)
    (hnc : column_letter_to_index nc = Except.ok nidx)
    (hp : parse bs = Option.some wb)
    (hs : sheet ∈ wb.sheets) (hi : img ∈ sheet.images)
    (hcol : img.anchorCol = idx)
    (hv : sheet.cell (img.anchorRow + 1) (nidx + 1) = v)
    (hfalsy : v = CellValue.int 0 ∨ v = CellValue.bool false ∨
      v = CellValue.str []) :
    ∃ l, extract_images_from_excel parse bs ic nc = Except.ok l ∧
      ({ name_raw := "image_".data ++ (toString img.anchorRow).data
         image_bytes := img.bytes
         sheet := sheet.name
         row := img.anchorRow + 1 } : ImageData) ∈ l := by
  apply extract_mem_of_matching hic hnc hp hs hi hcol
  rw [hv]
  rcases hfalsy with rfl | rfl | rfl <;> rfl

/-- C10 witness: the theorem applied to the fixture whose label cell holds
the integer 0. -/
theorem c10_falsy_label_synthesized_witness :
    ∃ l, extract_images_from_excel parseFix [4] "B".data "C".data =
        Except.ok l ∧
      ({ name_raw := "image_2".data, image_bytes := [7], sheet := "S".data,
         row := 3 } : ImageData) ∈ l :=
  c10_falsy_label_synthesized parseFix [4] "B".data "C".data 1 2 wbZeroLabel
    sheetZeroLabel ⟨2, 1, [7]⟩ (CellValue.int 0) (by rfl) (by rfl) (by rfl)
    (List.mem_cons_self _ _) (List.mem_cons_self _ _) (by rfl) (by rfl)
    (Or.inl rfl)

end B2P
